import Mathlib

/-!
Verification development for a small C++ regular-expression engine
(`src/regex.cpp`).  The engine compiles a textual pattern into an AST,
optionally optimizes the AST, lowers it to an NFA with capture-group
annotations, optionally optimizes the NFA, and runs two executors: a
backtracking simulator that recovers captures (`simulate`) and a
subset-construction simulator for acceptance (`powerset`).

The definitions below are a shallow embedding of that source file:
strings are `List Char`, machine sizes are `Nat`, pointer identity of
matchers is modelled with a per-transition id (`mid`, mirroring the fact
that every C++ transition owns a freshly cloned matcher, so matcher
pointers are unique per transition), and C++ exceptions are `Except`.
-/

set_option maxRecDepth 100000
set_option maxHeartbeats 1000000
set_option linter.unusedVariables false

/-! ### Matchers (EpsilonMatcher, CharacterMatcher, UniversalMatcher,
CharacterClassMatcher) -/

/-- The four matcher variants of the source.  `cclass` carries the
`invert` flag and the interval list of `CharacterClassMatcher`. -/
inductive Matcher where
  | epsilon : Matcher
  | universal : Matcher
  | chr (c : Char) : Matcher
  | cclass (invert : Bool) (intervals : List (Char × Char)) : Matcher
deriving DecidableEq, Repr

/-- `Matcher::length()`: characters consumed (0 for epsilon, 1 otherwise). -/
def Matcher.mlen : Matcher → Nat
  | .epsilon => 0
  | .universal => 1
  | .chr _ => 1
  | .cclass _ _ => 1

/-- Loop body of `CharacterClassMatcher::_non_inverting_match`: does some
interval cover the first character?  The C++ reads `str[0]` without an
emptiness check; when the string is empty and the interval list is
non-empty that read is out of bounds, and we model it as covering no
interval (for an empty interval list the loop body never runs, so the
`[]` case is exact there). -/
def nonInvertingMatch (intervals : List (Char × Char)) (s : List Char) : Bool :=
  match s with
  | [] => false
  | c :: _ => intervals.any (fun iv => iv.1 ≤ c && c ≤ iv.2)

/-- `Matcher::match`.  Note that `CharacterMatcher` and `UniversalMatcher`
explicitly require a non-empty string while `CharacterClassMatcher::match`
is just `invert ^ _non_inverting_match(str)` with no emptiness guard. -/
def Matcher.mmatch : Matcher → List Char → Bool
  | .epsilon, _ => true
  | .universal, s => !s.isEmpty
  | .chr c, s =>
    match s with
    | [] => false
    | x :: _ => x == c
  | .cclass invert intervals, s => invert ^^ nonInvertingMatch intervals s

/-! ### AST nodes -/

/-- The AST node kinds of the source: the four matcher leaves, the four
`SingleChildNode` quantifier/group wrappers and the two `MultiChildNode`
combinators.  `mult` is `MultiplyNode` with `min`/`max`/`unbounded`. -/
inductive ASTN where
  | eps : ASTN
  | chr (c : Char) : ASTN
  | univ : ASTN
  | cclass (invert : Bool) (intervals : List (Char × Char)) : ASTN
  | star (greedy : Bool) (child : ASTN)
  | plus (greedy : Bool) (child : ASTN)
  | opt (greedy : Bool) (child : ASTN)
  | mult (greedy : Bool) (mn mx : Nat) (unbounded : Bool) (child : ASTN)
  | bracket (capture : Bool) (child : ASTN)
  | cat (children : List ASTN)
  | alt (children : List ASTN)
deriving Repr

mutual
/-- Decidable equality for `ASTN` (the nested `List` field defeats the
default derivation, so the instance is written out). -/
def astnDecEq : (a b : ASTN) → Decidable (a = b)
  | .eps, .eps => isTrue rfl
  | .chr c1, .chr c2 =>
    match decEq c1 c2 with
    | isTrue h => isTrue (by rw [h])
    | isFalse h => isFalse (by intro hh; injection hh with h1; exact h h1)
  | .univ, .univ => isTrue rfl
  | .cclass i1 v1, .cclass i2 v2 =>
    match decEq i1 i2, decEq v1 v2 with
    | isTrue h1, isTrue h2 => isTrue (by rw [h1, h2])
    | isFalse h, _ => isFalse (by intro hh; injection hh with h1 h2; exact h h1)
    | _, isFalse h => isFalse (by intro hh; injection hh with h1 h2; exact h h2)
  | .star g1 c1, .star g2 c2 =>
    match decEq g1 g2, astnDecEq c1 c2 with
    | isTrue h1, isTrue h2 => isTrue (by rw [h1, h2])
    | isFalse h, _ => isFalse (by intro hh; injection hh with h1 h2; exact h h1)
    | _, isFalse h => isFalse (by intro hh; injection hh with h1 h2; exact h h2)
  | .plus g1 c1, .plus g2 c2 =>
    match decEq g1 g2, astnDecEq c1 c2 with
    | isTrue h1, isTrue h2 => isTrue (by rw [h1, h2])
    | isFalse h, _ => isFalse (by intro hh; injection hh with h1 h2; exact h h1)
    | _, isFalse h => isFalse (by intro hh; injection hh with h1 h2; exact h h2)
  | .opt g1 c1, .opt g2 c2 =>
    match decEq g1 g2, astnDecEq c1 c2 with
    | isTrue h1, isTrue h2 => isTrue (by rw [h1, h2])
    | isFalse h, _ => isFalse (by intro hh; injection hh with h1 h2; exact h h1)
    | _, isFalse h => isFalse (by intro hh; injection hh with h1 h2; exact h h2)
  | .mult g1 m1 x1 u1 c1, .mult g2 m2 x2 u2 c2 =>
    match decEq g1 g2, decEq m1 m2, decEq x1 x2, decEq u1 u2, astnDecEq c1 c2 with
    | isTrue h1, isTrue h2, isTrue h3, isTrue h4, isTrue h5 =>
      isTrue (by rw [h1, h2, h3, h4, h5])
    | isFalse h, _, _, _, _ =>
      isFalse (by intro hh; injection hh with h1 h2 h3 h4 h5; exact h h1)
    | _, isFalse h, _, _, _ =>
      isFalse (by intro hh; injection hh with h1 h2 h3 h4 h5; exact h h2)
    | _, _, isFalse h, _, _ =>
      isFalse (by intro hh; injection hh with h1 h2 h3 h4 h5; exact h h3)
    | _, _, _, isFalse h, _ =>
      isFalse (by intro hh; injection hh with h1 h2 h3 h4 h5; exact h h4)
    | _, _, _, _, isFalse h =>
      isFalse (by intro hh; injection hh with h1 h2 h3 h4 h5; exact h h5)
  | .bracket b1 c1, .bracket b2 c2 =>
    match decEq b1 b2, astnDecEq c1 c2 with
    | isTrue h1, isTrue h2 => isTrue (by rw [h1, h2])
    | isFalse h, _ => isFalse (by intro hh; injection hh with h1 h2; exact h h1)
    | _, isFalse h => isFalse (by intro hh; injection hh with h1 h2; exact h h2)
  | .cat l1, .cat l2 =>
    match astnDecEqL l1 l2 with
    | isTrue h => isTrue (by rw [h])
    | isFalse h => isFalse (by intro hh; injection hh with h1; exact h h1)
  | .alt l1, .alt l2 =>
    match astnDecEqL l1 l2 with
    | isTrue h => isTrue (by rw [h])
    | isFalse h => isFalse (by intro hh; injection hh with h1; exact h h1)
  | .eps, (.chr _) => isFalse (fun h => by injection h)
  | .eps, .univ => isFalse (fun h => by injection h)
  | .eps, (.cclass _ _) => isFalse (fun h => by injection h)
  | .eps, (.star _ _) => isFalse (fun h => by injection h)
  | .eps, (.plus _ _) => isFalse (fun h => by injection h)
  | .eps, (.opt _ _) => isFalse (fun h => by injection h)
  | .eps, (.mult _ _ _ _ _) => isFalse (fun h => by injection h)
  | .eps, (.bracket _ _) => isFalse (fun h => by injection h)
  | .eps, (.cat _) => isFalse (fun h => by injection h)
  | .eps, (.alt _) => isFalse (fun h => by injection h)
  | (.chr _), .eps => isFalse (fun h => by injection h)
  | (.chr _), .univ => isFalse (fun h => by injection h)
  | (.chr _), (.cclass _ _) => isFalse (fun h => by injection h)
  | (.chr _), (.star _ _) => isFalse (fun h => by injection h)
  | (.chr _), (.plus _ _) => isFalse (fun h => by injection h)
  | (.chr _), (.opt _ _) => isFalse (fun h => by injection h)
  | (.chr _), (.mult _ _ _ _ _) => isFalse (fun h => by injection h)
  | (.chr _), (.bracket _ _) => isFalse (fun h => by injection h)
  | (.chr _), (.cat _) => isFalse (fun h => by injection h)
  | (.chr _), (.alt _) => isFalse (fun h => by injection h)
  | .univ, .eps => isFalse (fun h => by injection h)
  | .univ, (.chr _) => isFalse (fun h => by injection h)
  | .univ, (.cclass _ _) => isFalse (fun h => by injection h)
  | .univ, (.star _ _) => isFalse (fun h => by injection h)
  | .univ, (.plus _ _) => isFalse (fun h => by injection h)
  | .univ, (.opt _ _) => isFalse (fun h => by injection h)
  | .univ, (.mult _ _ _ _ _) => isFalse (fun h => by injection h)
  | .univ, (.bracket _ _) => isFalse (fun h => by injection h)
  | .univ, (.cat _) => isFalse (fun h => by injection h)
  | .univ, (.alt _) => isFalse (fun h => by injection h)
  | (.cclass _ _), .eps => isFalse (fun h => by injection h)
  | (.cclass _ _), (.chr _) => isFalse (fun h => by injection h)
  | (.cclass _ _), .univ => isFalse (fun h => by injection h)
  | (.cclass _ _), (.star _ _) => isFalse (fun h => by injection h)
  | (.cclass _ _), (.plus _ _) => isFalse (fun h => by injection h)
  | (.cclass _ _), (.opt _ _) => isFalse (fun h => by injection h)
  | (.cclass _ _), (.mult _ _ _ _ _) => isFalse (fun h => by injection h)
  | (.cclass _ _), (.bracket _ _) => isFalse (fun h => by injection h)
  | (.cclass _ _), (.cat _) => isFalse (fun h => by injection h)
  | (.cclass _ _), (.alt _) => isFalse (fun h => by injection h)
  | (.star _ _), .eps => isFalse (fun h => by injection h)
  | (.star _ _), (.chr _) => isFalse (fun h => by injection h)
  | (.star _ _), .univ => isFalse (fun h => by injection h)
  | (.star _ _), (.cclass _ _) => isFalse (fun h => by injection h)
  | (.star _ _), (.plus _ _) => isFalse (fun h => by injection h)
  | (.star _ _), (.opt _ _) => isFalse (fun h => by injection h)
  | (.star _ _), (.mult _ _ _ _ _) => isFalse (fun h => by injection h)
  | (.star _ _), (.bracket _ _) => isFalse (fun h => by injection h)
  | (.star _ _), (.cat _) => isFalse (fun h => by injection h)
  | (.star _ _), (.alt _) => isFalse (fun h => by injection h)
  | (.plus _ _), .eps => isFalse (fun h => by injection h)
  | (.plus _ _), (.chr _) => isFalse (fun h => by injection h)
  | (.plus _ _), .univ => isFalse (fun h => by injection h)
  | (.plus _ _), (.cclass _ _) => isFalse (fun h => by injection h)
  | (.plus _ _), (.star _ _) => isFalse (fun h => by injection h)
  | (.plus _ _), (.opt _ _) => isFalse (fun h => by injection h)
  | (.plus _ _), (.mult _ _ _ _ _) => isFalse (fun h => by injection h)
  | (.plus _ _), (.bracket _ _) => isFalse (fun h => by injection h)
  | (.plus _ _), (.cat _) => isFalse (fun h => by injection h)
  | (.plus _ _), (.alt _) => isFalse (fun h => by injection h)
  | (.opt _ _), .eps => isFalse (fun h => by injection h)
  | (.opt _ _), (.chr _) => isFalse (fun h => by injection h)
  | (.opt _ _), .univ => isFalse (fun h => by injection h)
  | (.opt _ _), (.cclass _ _) => isFalse (fun h => by injection h)
  | (.opt _ _), (.star _ _) => isFalse (fun h => by injection h)
  | (.opt _ _), (.plus _ _) => isFalse (fun h => by injection h)
  | (.opt _ _), (.mult _ _ _ _ _) => isFalse (fun h => by injection h)
  | (.opt _ _), (.bracket _ _) => isFalse (fun h => by injection h)
  | (.opt _ _), (.cat _) => isFalse (fun h => by injection h)
  | (.opt _ _), (.alt _) => isFalse (fun h => by injection h)
  | (.mult _ _ _ _ _), .eps => isFalse (fun h => by injection h)
  | (.mult _ _ _ _ _), (.chr _) => isFalse (fun h => by injection h)
  | (.mult _ _ _ _ _), .univ => isFalse (fun h => by injection h)
  | (.mult _ _ _ _ _), (.cclass _ _) => isFalse (fun h => by injection h)
  | (.mult _ _ _ _ _), (.star _ _) => isFalse (fun h => by injection h)
  | (.mult _ _ _ _ _), (.plus _ _) => isFalse (fun h => by injection h)
  | (.mult _ _ _ _ _), (.opt _ _) => isFalse (fun h => by injection h)
  | (.mult _ _ _ _ _), (.bracket _ _) => isFalse (fun h => by injection h)
  | (.mult _ _ _ _ _), (.cat _) => isFalse (fun h => by injection h)
  | (.mult _ _ _ _ _), (.alt _) => isFalse (fun h => by injection h)
  | (.bracket _ _), .eps => isFalse (fun h => by injection h)
  | (.bracket _ _), (.chr _) => isFalse (fun h => by injection h)
  | (.bracket _ _), .univ => isFalse (fun h => by injection h)
  | (.bracket _ _), (.cclass _ _) => isFalse (fun h => by injection h)
  | (.bracket _ _), (.star _ _) => isFalse (fun h => by injection h)
  | (.bracket _ _), (.plus _ _) => isFalse (fun h => by injection h)
  | (.bracket _ _), (.opt _ _) => isFalse (fun h => by injection h)
  | (.bracket _ _), (.mult _ _ _ _ _) => isFalse (fun h => by injection h)
  | (.bracket _ _), (.cat _) => isFalse (fun h => by injection h)
  | (.bracket _ _), (.alt _) => isFalse (fun h => by injection h)
  | (.cat _), .eps => isFalse (fun h => by injection h)
  | (.cat _), (.chr _) => isFalse (fun h => by injection h)
  | (.cat _), .univ => isFalse (fun h => by injection h)
  | (.cat _), (.cclass _ _) => isFalse (fun h => by injection h)
  | (.cat _), (.star _ _) => isFalse (fun h => by injection h)
  | (.cat _), (.plus _ _) => isFalse (fun h => by injection h)
  | (.cat _), (.opt _ _) => isFalse (fun h => by injection h)
  | (.cat _), (.mult _ _ _ _ _) => isFalse (fun h => by injection h)
  | (.cat _), (.bracket _ _) => isFalse (fun h => by injection h)
  | (.cat _), (.alt _) => isFalse (fun h => by injection h)
  | (.alt _), .eps => isFalse (fun h => by injection h)
  | (.alt _), (.chr _) => isFalse (fun h => by injection h)
  | (.alt _), .univ => isFalse (fun h => by injection h)
  | (.alt _), (.cclass _ _) => isFalse (fun h => by injection h)
  | (.alt _), (.star _ _) => isFalse (fun h => by injection h)
  | (.alt _), (.plus _ _) => isFalse (fun h => by injection h)
  | (.alt _), (.opt _ _) => isFalse (fun h => by injection h)
  | (.alt _), (.mult _ _ _ _ _) => isFalse (fun h => by injection h)
  | (.alt _), (.bracket _ _) => isFalse (fun h => by injection h)
  | (.alt _), (.cat _) => isFalse (fun h => by injection h)

/-- Decidable equality for lists of `ASTN`. -/
def astnDecEqL : (a b : List ASTN) → Decidable (a = b)
  | [], [] => isTrue rfl
  | [], _ :: _ => isFalse (fun h => by injection h)
  | _ :: _, [] => isFalse (fun h => by injection h)
  | a :: as, b :: bs =>
    match astnDecEq a b, astnDecEqL as bs with
    | isTrue h1, isTrue h2 => isTrue (by rw [h1, h2])
    | isFalse h, _ => isFalse (by intro hh; injection hh with h1 h2; exact h h1)
    | _, isFalse h => isFalse (by intro hh; injection hh with h1 h2; exact h h2)
end

instance : DecidableEq ASTN := astnDecEq

mutual
/-- `ASTNode::accept_epsilon`: true iff the node accepts the empty string. -/
def acceptEpsilon : ASTN → Bool
  | .eps => true
  | .chr _ => false
  | .univ => false
  | .cclass _ _ => false
  | .star _ _ => true
  | .plus _ c => acceptEpsilon c
  | .opt _ _ => true
  | .mult _ mn _ _ c => mn == 0 || acceptEpsilon c
  | .bracket _ c => acceptEpsilon c
  | .cat cs => acceptEpsAll cs
  | .alt cs => acceptEpsAny cs

/-- All children accept epsilon (`ConcatenationNode`). -/
def acceptEpsAll : List ASTN → Bool
  | [] => true
  | c :: rest => acceptEpsilon c && acceptEpsAll rest

/-- Some child accepts epsilon (`DisjunctionNode`). -/
def acceptEpsAny : List ASTN → Bool
  | [] => false
  | c :: rest => acceptEpsilon c || acceptEpsAny rest
end

/-! ### Character-class normalization (`CharacterClassMatcher::normalize`) -/

/-- Insertion into a list sorted by the lexicographic pair order, used to
model `std::sort` on `std::pair<char,char>`. -/
def insSorted (x : Char × Char) : List (Char × Char) → List (Char × Char)
  | [] => [x]
  | y :: ys => if x.1 < y.1 || (x.1 == y.1 && x.2 ≤ y.2) then x :: y :: ys else y :: insSorted x ys

/-- Sorting by the lexicographic pair order (`std::sort` on pairs). -/
def sortPairs (l : List (Char × Char)) : List (Char × Char) :=
  l.foldr insSorted []

/-- The merge pass of `normalize`: `acc` is the reversed list of merged
intervals (`intervals[0..mergedIndex]`), intervals whose start is at most
the last merged end plus one are merged in. -/
def mergePass (acc : List (Char × Char)) : List (Char × Char) → List (Char × Char)
  | [] => acc.reverse
  | iv :: rest =>
    match acc with
    | [] => mergePass [iv] rest
    | m :: ms =>
      if iv.1.toNat ≤ m.2.toNat + 1 then
        mergePass ((m.1, if m.2 ≤ iv.2 then iv.2 else m.2) :: ms) rest
      else
        mergePass (iv :: m :: ms) rest

/-- `CharacterClassMatcher::normalize`: order each pair's endpoints, sort
by the pair order, then merge adjacent/overlapping intervals.  An empty
interval list is returned unchanged (the C++ returns early). -/
def normalizeIntervals (intervals : List (Char × Char)) : List (Char × Char) :=
  match intervals with
  | [] => []
  | _ =>
    let o := intervals.map (fun iv =>
      (if iv.1 ≤ iv.2 then iv.1 else iv.2, if iv.1 ≤ iv.2 then iv.2 else iv.1))
    match sortPairs o with
    | [] => []
    | h :: t => mergePass [h] t

/-- `CharacterClassMatcher::singlec`: a non-inverted class covering exactly
one character. -/
def singlec (invert : Bool) (intervals : List (Char × Char)) : Bool :=
  !invert && intervals.length == 1 &&
    (match intervals with
     | iv :: _ => iv.1 == iv.2
     | [] => false)

/-! ### Parser (`buildAST`)

The C++ parser keeps a stack of "active insertion slots": pointers to the
`unique_ptr` cells of the tree under construction.  We model a slot as a
path from the root (`List Nat` of child indices; a `SingleChildNode`'s
child is index 0), and the stack as a list of paths with the top first.
Replacing the subtree at a path models assigning through the slot
pointer; the C++ `parent` pointer of the node in a slot is null exactly
when the path is empty, and the parent node lives at the path minus its
last index. -/

/-- Parse-time failures: `syntax_error` and `unbalanced_brackets`
exceptions, with their messages. -/
inductive PErr where
  | syn (msg : String)
  | unbal (msg : String)
deriving DecidableEq, Repr

/-- The `AST` container: root node plus the two anchor flags. -/
structure AST where
  root : ASTN
  anchorBegin : Bool
  anchorEnd : Bool
deriving Repr

instance {ε α : Type} [DecidableEq ε] [DecidableEq α] : DecidableEq (Except ε α) :=
  fun a b =>
  match a, b with
  | .ok x, .ok y =>
    match decEq x y with
    | isTrue h => isTrue (by rw [h])
    | isFalse h => isFalse (by intro hh; injection hh with h1; exact h h1)
  | .error x, .error y =>
    match decEq x y with
    | isTrue h => isTrue (by rw [h])
    | isFalse h => isFalse (by intro hh; injection hh with h1; exact h h1)
  | .ok _, .error _ => isFalse (fun h => by injection h)
  | .error _, .ok _ => isFalse (fun h => by injection h)

instance : DecidableEq AST := fun x y =>
  match x, y with
  | ⟨r1, b1, e1⟩, ⟨r2, b2, e2⟩ =>
    match decEq r1 r2, decEq b1 b2, decEq e1 e2 with
    | isTrue h1, isTrue h2, isTrue h3 => isTrue (by rw [h1, h2, h3])
    | isFalse h, _, _ => isFalse (fun hh => h (congrArg AST.root hh))
    | _, isFalse h, _ => isFalse (fun hh => h (congrArg AST.anchorBegin hh))
    | _, _, isFalse h => isFalse (fun hh => h (congrArg AST.anchorEnd hh))

/-- Paths from the root of an `ASTN` to a subterm. -/
abbrev APath := List Nat

/-- The `i`-th child of a node (0 for the single child of a wrapper). -/
def childAt : ASTN → Nat → Option ASTN
  | .star _ c, 0 => some c
  | .plus _ c, 0 => some c
  | .opt _ c, 0 => some c
  | .mult _ _ _ _ c, 0 => some c
  | .bracket _ c, 0 => some c
  | .cat cs, i => cs.get? i
  | .alt cs, i => cs.get? i
  | _, _ => none

/-- Replace the `i`-th child of a node (no-op for invalid indices). -/
def setChild : ASTN → Nat → ASTN → ASTN
  | .star g _, 0, x => .star g x
  | .plus g _, 0, x => .plus g x
  | .opt g _, 0, x => .opt g x
  | .mult g mn mx ub _, 0, x => .mult g mn mx ub x
  | .bracket cap _, 0, x => .bracket cap x
  | .cat cs, i, x => .cat (cs.set i x)
  | .alt cs, i, x => .alt (cs.set i x)
  | a, _, _ => a

/-- The node at a path. -/
def getAt : ASTN → APath → Option ASTN
  | a, [] => some a
  | a, i :: p =>
    match childAt a i with
    | some c => getAt c p
    | none => none

/-- Replace the node at a path (no-op for invalid paths). -/
def setAt : ASTN → APath → ASTN → ASTN
  | _, [], x => x
  | a, i :: p, x =>
    match childAt a i with
    | some c => setChild a i (setAt c p x)
    | none => a

/-- The mutable context of `buildAST`'s single forward scan: tree, slot
stack, bracket balance, and the flag set (`escaped`,
`multiply_environment`, `multiply_environment_max`,
`multiply_environment_max_str`, `character_class_environment`,
`character_class_environment_interval`, `lazymodifier`), plus `objbuff`
(the `CharacterClassMatcher` being accumulated, as invert × intervals). -/
structure PState where
  root : ASTN
  stk : List APath
  bb : Int
  escaped : Bool
  multEnv : Bool
  multMax : Bool
  multMaxStr : Bool
  ccEnv : Bool
  ccPending : Bool
  lazymod : Bool
  buff : Option (Bool × List (Char × Char))
deriving Repr

/-- The top slot of the stack (`activenode.top()`). -/
def PState.top (st : PState) : APath := st.stk.headD []

/-- The node currently in the top slot (`*activenode.top()`). -/
def PState.cur (st : PState) : ASTN := (getAt st.root st.top).getD .eps

def isBracketN : ASTN → Bool
  | .bracket _ _ => true
  | _ => false

def isCatN : ASTN → Bool
  | .cat _ => true
  | _ => false

def isAltN : ASTN → Bool
  | .alt _ => true
  | _ => false

/-- The `do { pop } while (parent && !Bracket)` loop of the `)`/`>`
branch: pop at least once, then keep popping while the top slot has a
parent and does not hold a `BracketNode`. -/
def popToBracket (root : ASTN) : List APath → List APath
  | [] => []
  | _ :: rest =>
    match rest with
    | [] => []
    | p :: _ =>
      if p ≠ [] && !(isBracketN ((getAt root p).getD .eps)) then popToBracket root rest
      else rest

/-- The climb loop of the `|` branch: pop while the top slot has a
parent, does not hold a `DisjunctionNode`, and its parent is not a
`BracketNode`. -/
def popToDisj (root : ASTN) (stk : List APath) : List APath :=
  match stk with
  | [] => []
  | p :: rest =>
    if p ≠ [] && !(isAltN ((getAt root p).getD .eps)) &&
       !(isBracketN ((getAt root p.dropLast).getD .eps)) then
      popToDisj root rest
    else stk

/-- The concatenation branch at the end of the parser loop: build the
node for `c` (group open, class close, `.`, or a literal), climb one
level if the parent is a `ConcatenationNode`, then place the node in the
top slot (replacing an `EpsilonMatcher`, appending to a
`ConcatenationNode`, or wrapping in a fresh one), finally entering the
child slot if the placed node is a `BracketNode`. -/
def concatStep (st : PState) (c : Char) : Except PErr PState :=
  let mk : Except PErr (ASTN × Int) :=
    if !st.escaped && (c == '(' || c == '<') then
      .ok (.bracket (c == '<') .eps, st.bb + 1)
    else if c == ']' && !st.escaped then
      match st.buff with
      | some (inv, ivs) =>
        let n := normalizeIntervals ivs
        if n.isEmpty then .error (.syn "empty character class")
        else if singlec inv n then
          .ok (.chr ((n.headD (c, c)).1), st.bb)
        else .ok (.cclass inv n, st.bb)
      | none => .error (.syn "syntax error")
    else if c == '.' && !st.escaped then .ok (.univ, st.bb)
    else .ok (.chr c, st.bb)
  match mk with
  | .error e => .error e
  | .ok (curr, bb1) =>
    let stk1 :=
      match st.stk with
      | p :: rest =>
        if p ≠ [] && isCatN ((getAt st.root p.dropLast).getD .eps) then rest else st.stk
      | [] => st.stk
    let topp := stk1.headD []
    let (root2, stk2, newtop) :=
      match getAt st.root topp with
      | some .eps => (setAt st.root topp curr, stk1, topp)
      | some (.cat cs) =>
        (setAt st.root topp (.cat (cs ++ [curr])), (topp ++ [cs.length]) :: stk1,
         topp ++ [cs.length])
      | some other =>
        (setAt st.root topp (.cat [other, curr]), (topp ++ [1]) :: stk1, topp ++ [1])
      | none => (st.root, stk1, topp)
    let stk3 := if isBracketN curr then (newtop ++ [0]) :: stk2 else stk2
    .ok { st with root := root2, stk := stk3, bb := bb1, lazymod := false, escaped := false }

/-- One iteration of the parser loop of `buildAST`, processing character
`c` in state `st0`.  The branch structure follows the source: escape
character, character-class environment, class enter/exit, multiply
environment, `{`/`}`, then the main dispatch on `)`/`>`, `*`, `+`, `?`,
lazy `?`, `|`, and concatenation. -/
def parseStep (st0 : PState) (c : Char) : Except PErr PState :=
  if c == '\\' && !st0.escaped then
    .ok { st0 with lazymod := false, escaped := true }
  else if st0.ccEnv && (c == '[' && !st0.escaped) then
    .error (.syn "syntax error")
  else if st0.ccEnv && !(c == ']' && !st0.escaped) then
    match st0.buff with
    | some (inv, ivs) =>
      if c == '^' && !st0.escaped then
        .ok { st0 with buff := some (true, ivs), escaped := false }
      else if c == '-' && !st0.escaped then
        if ivs.length != 0 then .ok { st0 with ccPending := true, escaped := false }
        else .error (.syn "syntax error")
      else if st0.ccPending then
        match ivs.getLast? with
        | some (e, _) =>
          .ok { st0 with buff := some (inv, ivs.dropLast ++ [(e, c)]), ccPending := false,
                         escaped := false }
        | none => .error (.syn "syntax error")
      else
        .ok { st0 with buff := some (inv, ivs ++ [(c, c)]), escaped := false }
    | none => .error (.syn "syntax error")
  else if c == '[' && !st0.escaped then
    .ok { st0 with ccEnv := true, ccPending := false, buff := some (false, []),
                   lazymod := false }
  else
    let exitErr := c == ']' && !st0.escaped && (!st0.ccEnv || st0.ccPending)
    if exitErr then .error (.syn "syntax error")
    else
      let st1 := if c == ']' && !st0.escaped then { st0 with ccEnv := false } else st0
      if st1.multEnv && st1.escaped then
        .error (.syn "syntax error")
      else if st1.multEnv && c != '}' then
        if c == ',' then
          if st1.multMax then .error (.syn "syntax error")
          else .ok { st1 with multMax := true }
        else if '0' ≤ c && c ≤ '9' then
          match getAt st1.root st1.top with
          | some (.mult g mn mx ub ch) =>
            let d := c.toNat - '0'.toNat
            if st1.multMax then
              .ok { st1 with root := setAt st1.root st1.top (.mult g mn (mx * 10 + d) ub ch),
                             multMaxStr := true }
            else
              .ok { st1 with root := setAt st1.root st1.top (.mult g (mn * 10 + d) mx ub ch) }
          | _ => .error (.syn "syntax error")
        else if c != ' ' then .error (.syn "character not allowed")
        else .ok st1
      else if c == '{' && !st1.escaped then
        .ok { st1 with root := setAt st1.root st1.top (.mult true 0 0 false st1.cur),
                       multEnv := true, multMax := false, multMaxStr := false,
                       lazymod := false }
      else if c == '}' && !st1.escaped then
        if !st1.multEnv then .error (.syn "syntax error")
        else
          match getAt st1.root st1.top with
          | some (.mult g mn mx ub ch) =>
            if !st1.multMax then
              .ok { st1 with root := setAt st1.root st1.top (.mult g mn mn ub ch),
                             multMax := false, multEnv := false, lazymod := true }
            else if st1.multMaxStr then
              if mx < mn then .error (.syn "max repetitions less than min repetitions")
              else .ok { st1 with multMax := false, multEnv := false, lazymod := true }
            else
              .ok { st1 with root := setAt st1.root st1.top (.mult g mn mx true ch),
                             multMax := false, multEnv := false, lazymod := true }
          | _ => .error (.syn "syntax error")
      else if !st1.escaped && (c == ')' || c == '>') then
        if st1.bb - 1 < 0 then .error (.unbal "unbalanced brackets")
        else
          let stk1 := popToBracket st1.root st1.stk
          let topp := stk1.headD []
          match getAt st1.root topp with
          | some (.bracket cap ch) =>
            if (cap && c == ')') || (!cap && c == '>') then
              .error (.unbal "unbalanced capturing/not capturing groups")
            else
              let root1 := if !cap then setAt st1.root topp ch else st1.root
              .ok { st1 with root := root1, stk := stk1, bb := st1.bb - 1,
                             lazymod := false, escaped := false }
          | _ => .error (.unbal "unbalanced brackets")
      else if c == '*' && !st1.escaped then
        .ok { st1 with root := setAt st1.root st1.top (.star true st1.cur),
                       lazymod := true, escaped := false }
      else if c == '+' && !st1.escaped then
        .ok { st1 with root := setAt st1.root st1.top (.plus true st1.cur),
                       lazymod := true, escaped := false }
      else if c == '?' && !st1.escaped && !st1.lazymod then
        .ok { st1 with root := setAt st1.root st1.top (.opt true st1.cur),
                       lazymod := true, escaped := false }
      else if c == '?' && st1.lazymod then
        let newcur :=
          match st1.cur with
          | .star _ ch => .star false ch
          | .plus _ ch => .plus false ch
          | .opt _ ch => .opt false ch
          | .mult _ mn mx ub ch => .mult false mn mx ub ch
          | other => other
        .ok { st1 with root := setAt st1.root st1.top newcur, lazymod := false,
                       escaped := false }
      else if c == '|' && !st1.escaped then
        let stk1 := popToDisj st1.root st1.stk
        let topp := stk1.headD []
        match getAt st1.root topp with
        | some (.alt cs) =>
          .ok { st1 with root := setAt st1.root topp (.alt (cs ++ [.eps])),
                         stk := (topp ++ [cs.length]) :: stk1, lazymod := false,
                         escaped := false }
        | some other =>
          .ok { st1 with root := setAt st1.root topp (.alt [other, .eps]),
                         stk := (topp ++ [1]) :: stk1, lazymod := false, escaped := false }
        | none => .error (.syn "syntax error")
      else concatStep st1 c

/-- Run the parser loop over the pattern body. -/
def parseLoop : PState → List Char → Except PErr PState
  | st, [] => .ok st
  | st, c :: rest =>
    match parseStep st c with
    | .ok st1 => parseLoop st1 rest
    | .error e => .error e

/-- The anchor handling at the top of `buildAST`: both flags are computed
on the original pattern (`regex[0] == '^'`, `regex[size-1] == '$'`)
before the corresponding characters are removed. -/
def stripAnchors (s : List Char) : List Char × Bool × Bool :=
  match s with
  | [] => ([], false, false)
  | _ =>
    let ab := s.headD ' ' == '^'
    let ae := s.getLast? == some '$'
    let s1 := if ab then s.drop 1 else s
    let s2 := if ae then s1.dropLast else s1
    (s2, ab, ae)

/-- The initial parser state: the root slot holds an `EpsilonMatcher`. -/
def initPState : PState :=
  ⟨.eps, [[]], 0, false, false, false, false, false, false, false, none⟩

/-! ### AST optimizer (`optimizeAST`) -/

/-- The splice of `_merge_node_down<ConcatenationNode>`: children that are
themselves concatenations are replaced, in place, by their children. -/
def mergeCatDown : ASTN → ASTN
  | .cat cs =>
    .cat (cs.foldr (fun c acc =>
      (match c with
       | .cat inner => inner
       | other => [other]) ++ acc) [])
  | a => a

/-- The splice of `_merge_node_down<DisjunctionNode>`. -/
def mergeAltDown : ASTN → ASTN
  | .alt cs =>
    .alt (cs.foldr (fun c acc =>
      (match c with
       | .alt inner => inner
       | other => [other]) ++ acc) [])
  | a => a

/-- `_merge_multiply`: an exact `Multiply(m)` over an exact `Multiply(n)`
becomes exact `Multiply(m*n)`; an unbounded multiply with min 0 or 1
becomes a `KleeneStar` or `OneOrMore` (keeping greediness); an exact
multiply with min 0 becomes `Epsilon`. -/
def mergeMultiply (a : ASTN) : ASTN :=
  match a with
  | .mult g mn mx ub ch =>
    let merged :=
      if !ub && mn == mx then
        match ch with
        | .mult _ mn2 mx2 ub2 ch2 =>
          if !ub2 && mn2 == mx2 then (mn * mn2, mn * mn2, ch2) else (mn, mx, ch)
        | _ => (mn, mx, ch)
      else (mn, mx, ch)
    match merged with
    | (mn1, mx1, ch1) =>
      if ub && (mn1 == 0 || mn1 == 1) then
        if mn1 == 0 then .star g ch1 else .plus g ch1
      else if (!ub && mn1 == mx1) && mn1 == 0 then .eps
      else .mult g mn1 mx1 ub ch1
  | a => a

/-- Tags for the three quantifier kinds handled by `_merge_oneor_hh`. -/
inductive QTag where
  | k : QTag
  | p : QTag
  | o : QTag
deriving DecidableEq, Repr

/-- View a node as a quantifier of the tagged kind. -/
def qmatch : QTag → ASTN → Option (Bool × ASTN)
  | .k, .star g c => some (g, c)
  | .p, .plus g c => some (g, c)
  | .o, .opt g c => some (g, c)
  | _, _ => none

/-- Build a quantifier node of the tagged kind. -/
def mkQ : QTag → Bool → ASTN → ASTN
  | .k, g, c => .star g c
  | .p, g, c => .plus g c
  | .o, g, c => .opt g c

/-- The rewrite of one `_merge_oneor_hh<T1, T2>` instantiation, applied
when the root is a `T1` node whose child is a `T2` node:
same kind keeps the outer node (greedy ∨ for `OneOrMore`, ∧ otherwise);
outer `KleeneStar` absorbs the inner (greedy ∧ unless the inner is a
`OneOrMore`, in which case the outer greediness is kept); inner
`KleeneStar` replaces the root (its greediness is overwritten with
outer ∧ inner unless the outer is a `OneOrMore`); the `Opt`/`Plus` mixed
pairs rewrite to a `KleeneStar` with greedy = outer ∧ inner under the
source's greediness conditions, and otherwise stay nested. -/
def mergeStep (t1 t2 : QTag) (root : ASTN) : Option ASTN :=
  match qmatch t1 root with
  | none => none
  | some (g1, c1) =>
    match qmatch t2 c1 with
    | none => none
    | some (g2, c2) =>
      if t1 == t2 then
        some (mkQ t1 (if t1 == QTag.p then g1 || g2 else g1 && g2) c2)
      else if t1 == QTag.k then
        some (.star (if t2 == QTag.p then g1 else g1 && g2) c2)
      else if t2 == QTag.k then
        some (.star (if t1 == QTag.p then g2 else g1 && g2) c2)
      else if (t1 == QTag.o && (!g1 || g2)) || (t1 == QTag.p && (g1 || !g2)) then
        some (.star (g1 && g2) c2)
      else none

/-- The nine ordered `(T1, T2)` instantiations produced by the parameter
pack expansion of `_merge_oneor_h` over `<KleeneStar, OneOrMore,
OneOrNone>` twice. -/
def allQPairs : List (QTag × QTag) :=
  [(.k, .k), (.k, .p), (.k, .o),
   (.p, .k), (.p, .p), (.p, .o),
   (.o, .k), (.o, .p), (.o, .o)]

mutual
/-- Walk the nine pair instantiations in order; after a successful merge
re-run the whole cascade on the merged result (the recursive call at the
end of `_merge_oneor_hh`) and continue with the remaining pairs.  The C++
recursion needs no fuel (every merge removes at least one node); here a
unit of fuel is consumed per processed pair, so any fuel beyond
`16 · (node count + 2)` can never run out. -/
def cascadeGo : Nat → List (QTag × QTag) → ASTN → ASTN
  | _, [], r => r
  | 0, _ :: _, r => r
  | fuel + 1, (t1, t2) :: rest, r =>
    match mergeStep t1 t2 r with
    | some r1 => cascadeGo fuel rest (cascadeAll fuel r1)
    | none => cascadeGo fuel rest r

/-- One full round of the quantifier-merge cascade. -/
def cascadeAll : Nat → ASTN → ASTN
  | 0, r => r
  | fuel + 1, r => cascadeGo fuel allQPairs r
end

mutual
/-- Executable node count of an AST, used to size the cascade fuel. -/
def astSize : ASTN → Nat
  | .star _ c => 1 + astSize c
  | .plus _ c => 1 + astSize c
  | .opt _ c => 1 + astSize c
  | .mult _ _ _ _ c => 1 + astSize c
  | .bracket _ c => 1 + astSize c
  | .cat cs => 1 + astSizeL cs
  | .alt cs => 1 + astSizeL cs
  | _ => 1

/-- Total node count of a list of ASTs. -/
def astSizeL : List ASTN → Nat
  | [] => 0
  | c :: rest => astSize c + astSizeL rest
end

/-- The node-local rewrites run by `optimizeAST` after optimizing the
children: flatten concatenations and disjunctions, merge multiplies, then
run the quantifier-merge cascade. -/
def postOpt (a : ASTN) : ASTN :=
  cascadeAll (16 * (astSize a + 2)) (mergeMultiply (mergeAltDown (mergeCatDown a)))

mutual
/-- `optimizeAST`: bottom-up application of the rewrites. -/
def optimizeAST : ASTN → ASTN
  | .star g c => postOpt (.star g (optimizeAST c))
  | .plus g c => postOpt (.plus g (optimizeAST c))
  | .opt g c => postOpt (.opt g (optimizeAST c))
  | .mult g mn mx ub c => postOpt (.mult g mn mx ub (optimizeAST c))
  | .bracket cap c => postOpt (.bracket cap (optimizeAST c))
  | .cat cs => postOpt (.cat (optimizeList cs))
  | .alt cs => postOpt (.alt (optimizeList cs))
  | a => postOpt a

/-- `optimizeAST` over the children of a multi-child node. -/
def optimizeList : List ASTN → List ASTN
  | [] => []
  | c :: rest => optimizeAST c :: optimizeList rest
end

/-- `buildAST`: strip anchors, run the scan, check the final environment
flags and bracket balance, and optionally optimize the AST. -/
def buildAST (s : List Char) (optimize : Bool) : Except PErr AST :=
  match stripAnchors s with
  | (body, ab, ae) =>
    match parseLoop initPState body with
    | .error e => .error e
    | .ok st =>
      if st.bb != 0 then .error (.unbal "unbalanced brackets")
      else if st.ccEnv then .error (.syn "character class environment not closed")
      else if st.multEnv then .error (.syn "multiply environment not closed")
      else .ok ⟨if optimize then optimizeAST st.root else st.root, ab, ae⟩

/-! ### NFA

Transitions are `(matcher, target, annotation)`; each C++ transition owns
a freshly cloned matcher, so matcher pointers identify transitions — we
model that identity with the `mid` field (the index into the `matchers`
vector, which grows by exactly one per `addTransition`).  Reverse
transitions mirror forward ones with the source state instead of the
target. -/

/-- A transition annotation: the group-open and group-close sets
(`std::set<size_t>` iterates in ascending order, so the vectors built
from them are sorted). -/
structure TransInfo where
  opens : List Nat
  closes : List Nat
deriving DecidableEq, Repr

/-- A forward transition. -/
structure NTrans where
  mid : Nat
  m : Matcher
  tgt : Nat
  info : Option TransInfo
deriving DecidableEq, Repr

/-- A reverse transition. -/
structure RTrans where
  mid : Nat
  m : Matcher
  src : Nat
  info : Option TransInfo
deriving DecidableEq, Repr

/-- An `NFAState`. -/
structure BState where
  isInitial : Bool := false
  isFinal : Bool := false
  ts : List NTrans := []
  rts : List RTrans := []
deriving DecidableEq, Repr

/-- The `NFA`: states, group count (group 0 always exists), and the next
fresh transition id (the size of the C++ `matchers` vector). -/
structure BNFA where
  states : List BState := []
  nGroups : Nat := 1
  nextMid : Nat := 0
deriving DecidableEq, Repr

/-- Update the `i`-th element of a list in place. -/
def updAt : List α → Nat → (α → α) → List α
  | [], _, _ => []
  | x :: xs, 0, f => f x :: xs
  | x :: xs, i + 1, f => x :: updAt xs i f

/-- `NFA::newState`: append a fresh state, return its index. -/
def BNFA.newState (n : BNFA) : BNFA × Nat :=
  ({ n with states := n.states ++ [{}] }, n.states.length)

/-- `NFA::newGroup`: allocate a fresh capture-group id. -/
def BNFA.newGroup (n : BNFA) : BNFA × Nat :=
  ({ n with nGroups := n.nGroups + 1 }, n.nGroups)

/-- `NFA::addTransition`: allocate the annotation only when a group set is
non-empty, append the forward transition to the source state and the
mirrored reverse transition to the target state. -/
def addTransition (n : BNFA) (m : Matcher) (fromS toS : Nat) (og cg : List Nat) : BNFA :=
  let info := if og.isEmpty && cg.isEmpty then none else some ⟨og, cg⟩
  let mid := n.nextMid
  let sts := updAt n.states fromS (fun st => { st with ts := st.ts ++ [⟨mid, m, toS, info⟩] })
  let sts1 := updAt sts toS (fun st => { st with rts := st.rts ++ [⟨mid, m, fromS, info⟩] })
  { n with states := sts1, nextMid := mid + 1 }

mutual
/-- `_ASTtoNFA`: recursively lower an AST node between the states `b` and
`e`, with the group-open and group-close annotations `og`/`cg`.  The C++
recursion is bounded by the tree structure and the repetition counts; a
unit of fuel is consumed per call, and `lowerFuel` below bounds the call
depth, so the zero-fuel case is unreachable from `ASTtoNFA`. -/
def lower : Nat → BNFA → Nat → Nat → ASTN → List Nat → List Nat → BNFA
  | 0, n, _, _, _, _, _ => n
  | fuel + 1, n, b, e, a, og, cg =>
    match a with
    | .eps => addTransition n .epsilon b e og cg
    | .chr c => addTransition n (.chr c) b e og cg
    | .univ => addTransition n .universal b e og cg
    | .cclass inv ivs => addTransition n (.cclass inv ivs) b e og cg
    | .cat cs => lowerSeq fuel n b e cs og cg true
    | .alt cs => lowerAlts fuel n b e cs og cg
    | .star g c =>
      if acceptEpsilon c then
        let (n1, bf) := n.newState
        let (n2, af) := n1.newState
        let n3 :=
          if g then
            addTransition (addTransition n2 .epsilon b bf og []) .epsilon b e og cg
          else
            addTransition (addTransition n2 .epsilon b e og cg) .epsilon b bf og []
        let n4 := lower fuel n3 bf af c [] []
        if g then
          addTransition (addTransition n4 .epsilon af bf [] []) .epsilon af e [] cg
        else
          addTransition (addTransition n4 .epsilon af e [] cg) .epsilon af bf [] []
      else
        let (n1, mid) := n.newState
        let n2 := addTransition n1 .epsilon b mid og []
        if g then
          addTransition (lower fuel n2 mid mid c [] []) .epsilon mid e [] cg
        else
          lower fuel (addTransition n2 .epsilon mid e [] cg) mid mid c [] []
    | .plus g c =>
      let (n1, bf) := n.newState
      let (n2, af) := n1.newState
      let n3 := addTransition n2 .epsilon b bf og []
      let n4 := lower fuel n3 bf af c [] []
      if g then
        addTransition (addTransition n4 .epsilon af bf [] []) .epsilon af e [] cg
      else
        addTransition (addTransition n4 .epsilon af e [] cg) .epsilon af bf [] []
    | .opt g c =>
      if g then
        addTransition (lower fuel n b e c og cg) .epsilon b e og cg
      else
        lower fuel (addTransition n .epsilon b e og cg) b e c og cg
    | .mult g mn mx ub c =>
      -- chain the first min-1 copies
      let (n1, nb, i) :=
        if mn != 0 then lowerChain fuel n b c og (mn - 1) 0
        else (n, b, 0)
      if !ub && mn == mx then
        if mn != 0 then
          lower fuel n1 nb e c (if i == 0 then og else []) cg
        else
          addTransition n1 .epsilon b e og cg
      else if ub then
        if mn == 0 then
          let (n2, mid) := n1.newState
          let n3 := addTransition n2 .epsilon b mid og []
          if g then
            addTransition (lower fuel n3 mid mid c [] []) .epsilon mid e [] cg
          else
            lower fuel (addTransition n3 .epsilon mid e [] cg) mid mid c [] []
        else if mn == 1 then
          let (n2, bf) := n1.newState
          let (n3, af) := n2.newState
          let n4 := addTransition n3 .epsilon b bf og []
          let n5 := lower fuel n4 bf af c [] []
          if g then
            addTransition (addTransition n5 .epsilon af bf [] []) .epsilon af e [] cg
          else
            addTransition (addTransition n5 .epsilon af e [] cg) .epsilon af bf [] []
        else
          let (n2, ne) := n1.newState
          let n3 := lower fuel n2 nb ne c [] []
          if g then
            addTransition (addTransition n3 .epsilon ne nb [] []) .epsilon ne e [] cg
          else
            addTransition (addTransition n3 .epsilon ne e [] cg) .epsilon ne nb [] []
      else
        -- bounded, not exact: shortcut transitions between min and max-1
        let (n2, nb1, i1) := lowerBounded fuel n1 nb e g mn c og cg i ((mx - 1) - i)
        let ogi := if i1 == 0 then og else []
        if g then
          addTransition (lower fuel n2 nb1 e c ogi cg) .epsilon nb1 e ogi cg
        else
          lower fuel (addTransition n2 .epsilon nb1 e ogi cg) nb1 e c ogi cg
    | .bracket cap c =>
      if cap then
        let (n1, gid) := n.newGroup
        lower fuel n1 b e c (og ++ [gid]) (cg ++ [gid])
      else
        lower fuel n b e c og cg
termination_by structural fuel n b e a og cg => fuel

/-- The concatenation loop of `_ASTtoNFA`: `k-1` fresh intermediate
states, opens on the first child, closes on the last. -/
def lowerSeq : Nat → BNFA → Nat → Nat → List ASTN → List Nat → List Nat → Bool → BNFA
  | 0, n, _, _, _, _, _, _ => n
  | fuel + 1, n, b, e, cs, og, cg, first =>
    match cs with
    | [] => n
    | [c] => lower fuel n b e c (if first then og else []) cg
    | c :: rest =>
      let (n1, s) := n.newState
      let n2 := lower fuel n1 b s c (if first then og else []) []
      lowerSeq fuel n2 s e rest og cg false
termination_by structural fuel n b e cs og cg first => fuel

/-- The disjunction loop of `_ASTtoNFA`: parallel fragments sharing
`b`, `e` and the annotations. -/
def lowerAlts : Nat → BNFA → Nat → Nat → List ASTN → List Nat → List Nat → BNFA
  | 0, n, _, _, _, _, _ => n
  | fuel + 1, n, b, e, cs, og, cg =>
    match cs with
    | [] => n
    | c :: rest => lowerAlts fuel (lower fuel n b e c og cg) b e rest og cg
termination_by structural fuel n b e cs og cg => fuel

/-- The first loop of the `MultiplyNode` case: chain `k` copies of the
child through fresh states; returns the new begin state and the loop
counter `i`. -/
def lowerChain : Nat → BNFA → Nat → ASTN → List Nat → Nat → Nat → BNFA × Nat × Nat
  | 0, n, b, _, _, _, i => (n, b, i)
  | fuel + 1, n, b, c, og, k, i =>
    match k with
    | 0 => (n, b, i)
    | k' + 1 =>
      let (n1, ne) := n.newState
      let n2 := lower fuel n1 b ne c (if i == 0 then og else []) []
      lowerChain fuel n2 ne c og k' (i + 1)
termination_by structural fuel n b c og k i => fuel

/-- The bounded non-exact loop of the `MultiplyNode` case: each position
lowers a copy and, from `min` on, an annotated ε shortcut to `e` ordered
before or after the copy according to greediness. -/
def lowerBounded : Nat → BNFA → Nat → Nat → Bool → Nat → ASTN → List Nat → List Nat →
    Nat → Nat → BNFA × Nat × Nat
  | 0, n, b, _, _, _, _, _, _, i, _ => (n, b, i)
  | fuel + 1, n, b, e, g, mn, c, og, cg, i, k =>
    match k with
    | 0 => (n, b, i)
    | k' + 1 =>
      let (n1, ne) := n.newState
      let ogi := if i == 0 then og else []
      let n2 :=
        if g then
          let na := lower fuel n1 b ne c ogi []
          if mn ≤ i then addTransition na .epsilon b e ogi cg else na
        else
          let na := if mn ≤ i then addTransition n1 .epsilon b e ogi cg else n1
          lower fuel na b ne c ogi []
      lowerBounded fuel n2 ne e g mn c og cg (i + 1) k'
termination_by structural fuel n b e g mn c og cg i k => fuel
end

mutual
/-- An executable bound on the call depth of the `lower` family for a
given AST (repetition counts enter through the `MultiplyNode` loops). -/
def lowerFuel : ASTN → Nat
  | .star _ c => 4 + lowerFuel c
  | .plus _ c => 4 + lowerFuel c
  | .opt _ c => 4 + lowerFuel c
  | .mult _ mn mx _ c => mn + mx + 8 + lowerFuel c
  | .bracket _ c => 4 + lowerFuel c
  | .cat cs => 4 + lowerFuelL cs
  | .alt cs => 4 + lowerFuelL cs
  | _ => 4

/-- Summed call-depth bound for child lists. -/
def lowerFuelL : List ASTN → Nat
  | [] => 0
  | c :: rest => lowerFuel c + 4 + lowerFuelL rest
end

/-- Mark a state initial. -/
def BNFA.setInitial (n : BNFA) (i : Nat) : BNFA :=
  { n with states := updAt n.states i (fun st => { st with isInitial := true }) }

/-- Mark a state final. -/
def BNFA.setFinal (n : BNFA) (i : Nat) : BNFA :=
  { n with states := updAt n.states i (fun st => { st with isFinal := true }) }

/-! ### NFA optimizer (`NFA::optimize`) -/

/-- Index remapping of `remove_node` after erasing state `i`: indices
above `i` shift down, references to `i` are redirected to the (already
adjusted) `j`. -/
def remapIdx (i j x : Nat) : Nat :=
  if x > i then x - 1 else if x == i then j else x

/-- `remove_node(i, j)`: erase state `i` and remap every forward and
reverse transition of the remaining states. -/
def removeNode (n : BNFA) (i j0 : Nat) : BNFA :=
  let j := if j0 > i then j0 - 1 else j0
  { n with states := (n.states.eraseIdx i).map (fun st =>
      { st with ts := st.ts.map (fun tr => { tr with tgt := remapIdx i j tr.tgt }),
                rts := st.rts.map (fun rt => { rt with src := remapIdx i j rt.src }) }) }

/-- Erase the first element satisfying the predicate. -/
def eraseFirst (p : α → Bool) : List α → List α
  | [] => []
  | x :: xs => if p x then xs else x :: eraseFirst p xs

/-- The first sweep of `NFA::optimize`, iterating right-to-left: delete
unreachable states; a non-initial state whose single incoming transition
is an unannotated ε is spliced into its predecessor, the predecessor's ε
transition being replaced in place by the state's outgoing transitions. -/
def sweep1 : Nat → BNFA → BNFA
  | 0, n => n
  | i + 1, n =>
    match n.states.get? i with
    | none => sweep1 i n
    | some st =>
      if st.rts.length == 0 && !st.isInitial then
        sweep1 i (removeNode n i i)
      else if st.rts.length == 1 && !st.isInitial then
        match st.rts.headD ⟨0, .epsilon, 0, none⟩ with
        | rt =>
          if rt.m == .epsilon && rt.info == none then
            let j := rt.src
            let jts := ((n.states.get? j).getD {}).ts
            let idx := jts.findIdx (fun tr => tr.mid == rt.mid)
            let jts1 := jts.take idx ++ st.ts ++ jts.drop (idx + 1)
            let n1 := { n with states := updAt n.states j (fun s2 => { s2 with ts := jts1 }) }
            sweep1 i (removeNode n1 i j)
          else sweep1 i n
      else sweep1 i n

/-- The second sweep: delete dead-end states; a non-final state whose
single outgoing transition is an unannotated ε is spliced into its
successor, the successor inheriting its reverse transitions. -/
def sweep2 : Nat → BNFA → BNFA
  | 0, n => n
  | i + 1, n =>
    match n.states.get? i with
    | none => sweep2 i n
    | some st =>
      if st.ts.length == 0 && !st.isFinal then
        sweep2 i (removeNode n i i)
      else if st.ts.length == 1 && !st.isFinal then
        match st.ts.headD ⟨0, .epsilon, 0, none⟩ with
        | tr =>
          if tr.m == .epsilon && tr.info == none then
            let j := tr.tgt
            let jrts := ((n.states.get? j).getD {}).rts
            let jrts1 := eraseFirst (fun rt => rt.mid == tr.mid) jrts ++ st.rts
            let n1 := { n with states := updAt n.states j (fun s2 => { s2 with rts := jrts1 }) }
            sweep2 i (removeNode n1 i j)
          else sweep2 i n
      else sweep2 i n

/-- `NFA::optimize`: the two sweeps in order, each starting from the
highest state index. -/
def optimizeNFA (n : BNFA) : BNFA :=
  let n1 := sweep1 n.states.length n
  sweep2 n1.states.length n1

/-- `ASTtoNFA`: allocate begin/end, mark them initial/final, lower the
root with group 0 opened and closed around it, add the `.*`-style
`Universal` self-loops for missing anchors, then optionally optimize. -/
def ASTtoNFA (ast : AST) (optimize : Bool) : BNFA :=
  let n0 : BNFA := ⟨[], 1, 0⟩
  let (n1, b) := n0.newState
  let (n2, e) := n1.newState
  let n3 := (n2.setInitial b).setFinal e
  let n4 := lower (lowerFuel ast.root + 1) n3 b e ast.root [0] [0]
  let n5 := if !ast.anchorBegin then addTransition n4 .universal b b [] [] else n4
  let n6 := if !ast.anchorEnd then addTransition n5 .universal e e [] [] else n5
  if optimize then optimizeNFA n6 else n6


/-! ### Backtracking executor (`NFA::simulate`) -/

/-- The mutable context of `NFA::simulate`: the visited set of
`(state, offset)` pairs and the capture vector.  A capture slot is
`none` until first written (the default-constructed `string_view`),
otherwise `(start, length)` over the input. -/
structure SimSt where
  visited : List (Nat × Nat)
  caps : List (Option (Nat × Nat))
deriving DecidableEq, Repr

mutual
/-- `exploreTransitions`: succeed when the remaining string is empty at a
final state; prune on a visited `(state, offset)` pair, otherwise record
it and try the outgoing transitions in declared order.  The C++ recursion
terminates because every nested call has inserted a fresh pair into the
visited set; here a unit of fuel is consumed per step of either function,
so the fuel chosen in `simulate` can never run out. -/
def explore (n : BNFA) (w : List Char) : Nat → Nat → List Char → SimSt → Bool × SimSt
  | 0, _, _, st => (false, st)
  | fuel + 1, s, rem, st =>
    let stt := (n.states.get? s).getD {}
    if rem.isEmpty && stt.isFinal then (true, st)
    else
      let off := w.length - rem.length
      if st.visited.contains (s, off) then (false, st)
      else exploreList n w fuel rem off { st with visited := (s, off) :: st.visited } stt.ts
termination_by structural fuel s rem st => fuel

/-- The transition loop of `exploreTransitions`: on a matching
transition, snapshot the captures if the transition is annotated, record
the group opens (slice start at the current offset) and closes (end at
offset + matcher length; a close of a never-opened group reads the
default `string_view`, whose null data pointer we model as start 0),
recurse past the consumed characters, and restore the snapshot on
failure.  `substr` past the end throws in the C++; `List.drop` saturates,
which matters only when a character class matches the empty string (see
the acceptance-consistency analysis). -/
def exploreList (n : BNFA) (w : List Char) :
    Nat → List Char → Nat → SimSt → List NTrans → Bool × SimSt
  | 0, _, _, st, _ => (false, st)
  | fuel + 1, rem, off, st, trs =>
    match trs with
    | [] => (false, st)
    | tr :: rest =>
      if tr.m.mmatch rem then
        let snap := st.caps
        let caps1 :=
          match tr.info with
          | none => st.caps
          | some info =>
            let c1 := info.opens.foldl (fun cs g => cs.set g (some (off, 0))) st.caps
            info.closes.foldl (fun cs g =>
              match cs.get? g with
              | some (some (s0, _)) => cs.set g (some (s0, off + tr.m.mlen - s0))
              | _ => cs.set g (some (0, off + tr.m.mlen))) c1
        match explore n w fuel tr.tgt (rem.drop tr.m.mlen) { st with caps := caps1 } with
        | (true, st1) => (true, st1)
        | (false, st1) =>
          let st2 := if tr.info.isSome then { st1 with caps := snap } else st1
          exploreList n w fuel rem off st2 rest
      else exploreList n w fuel rem off st rest
termination_by structural fuel rem off st trs => fuel
end

/-- The outer loop of `NFA::simulate`: try every initial state in order,
sharing the visited set and captures; `none` models the empty returned
vector. -/
def simulateGo (n : BNFA) (w : List Char) (fuel : Nat) :
    List Nat → SimSt → Option (List (Option (Nat × Nat)))
  | [], _ => none
  | i :: rest, st =>
    if ((n.states.get? i).getD {}).isInitial then
      match explore n w fuel i w st with
      | (true, st1) => some st1.caps
      | (false, st1) => simulateGo n w fuel rest st1
    else simulateGo n w fuel rest st

/-- The total number of transitions of the NFA. -/
def transCount (n : BNFA) : Nat :=
  n.states.foldl (fun acc st => acc + st.ts.length) 0

/-- `NFA::simulate`: start with `nGroups` unset captures; a returned
vector is `some`, a failed match is `none`.  The fuel covers the depth
bound `|states| · (|input|+1)` enforced by the visited set, times the
transition-loop steps taken between pruning points. -/
def simulate (n : BNFA) (w : List Char) : Option (List (Option (Nat × Nat))) :=
  simulateGo n w (n.states.length * (w.length + 1) * (transCount n + 2) + 1)
    (List.range n.states.length) ⟨[], List.replicate n.nGroups none⟩

/-! ### Subset-construction executor (`NFA::powerset`) -/

/-- Insert into a sorted duplicate-free list of state indices
(`std::set<size_t>`). -/
def insSortedNat (x : Nat) : List Nat → List Nat
  | [] => [x]
  | y :: ys =>
    if x < y then x :: y :: ys
    else if x == y then y :: ys
    else y :: insSortedNat x ys

/-- One round of ε-expansion: add the targets of all `EpsilonMatcher`
transitions out of the current set. -/
def epsStep (n : BNFA) (s : List Nat) : List Nat :=
  s.foldl (fun acc i =>
    ((n.states.get? i).getD {}).ts.foldl (fun acc2 tr =>
      match tr.m with
      | .epsilon => insSortedNat tr.tgt acc2
      | _ => acc2) acc) s

/-- `epsilonClosure`: the C++ uses a stack-driven worklist; the set it
computes is the ε-reachability closure, here reached as a fixpoint of
`epsStep` (each round adds at least one state, so `|states| + 1` rounds
suffice). -/
def epsilonClosure (n : BNFA) : Nat → List Nat → List Nat
  | 0, s => s
  | k + 1, s =>
    let s1 := epsStep n s
    if s1 == s then s else epsilonClosure n k s1

/-- The ε-closure with sufficient fuel. -/
def closureN (n : BNFA) (s : List Nat) : List Nat :=
  epsilonClosure n (n.states.length + 1) s

/-- The advance step of `NFA::powerset`: targets of all length-1
transitions whose matcher accepts the one-character string `c`. -/
def advance (n : BNFA) (s : List Nat) (c : Char) : List Nat :=
  s.foldl (fun acc i =>
    ((n.states.get? i).getD {}).ts.foldl (fun acc2 tr =>
      if tr.m.mlen == 1 && tr.m.mmatch [c] then insSortedNat tr.tgt acc2 else acc2) acc) []

/-- The initial state set of `NFA::powerset`. -/
def initialSet (n : BNFA) : List Nat :=
  (List.range n.states.length).filter (fun i => ((n.states.get? i).getD {}).isInitial)

/-- `NFA::powerset`: per character, close under ε then advance; after the
last character close once more and accept iff a final state is in the
set. -/
def powerset (n : BNFA) (w : List Char) : Bool :=
  let sF := w.foldl (fun s c => advance n (closureN n s) c) (initialSet n)
  (closureN n sF).any (fun i => ((n.states.get? i).getD {}).isFinal)

/-- The `NFA(regex, optimize)` constructor: parse (optimizing the AST
according to the flag), then lower (optimizing the NFA according to the
same flag). -/
def compile (s : List Char) (optimize : Bool) : Except PErr BNFA :=
  match buildAST s optimize with
  | .error e => .error e
  | .ok ast => .ok (ASTtoNFA ast optimize)

/-! ### Claim theorems -/

/-- Claim C10 (confirmed): the pattern `[^]` — a character class containing
only an unescaped `^` — is rejected at parse time with the
empty-character-class syntax error, although as an inverted class with no
intervals it would denote the set of all characters (second conjunct:
such a matcher accepts every one-character string). -/
theorem empty_inverted_class_rejected :
    buildAST "[^]".toList true = .error (.syn "empty character class") ∧
    ∀ c : Char, Matcher.mmatch (.cclass true []) [c] = true :=
  ⟨by decide, fun _ => rfl⟩

/-- Claim C4 (code_bug): the spec's matcher table requires
`match(s) = s non-empty ∧ (invert XOR covers s[0])`, so an inverted class
must reject the empty string.  `CharacterClassMatcher::match` has no
emptiness guard (unlike `CharacterMatcher` and `UniversalMatcher`), so an
inverted class accepts the empty string: with no intervals the C++
behaviour is fully defined and returns `invert`; with intervals the read
of `str[0]` is out of bounds (modelled as covering no interval). -/
theorem inverted_class_accepts_empty_string :
    Matcher.mmatch (.cclass true []) [] = true ∧
    Matcher.mmatch (.cclass true [('a', 'a')]) [] = true :=
  ⟨rfl, rfl⟩

/-- Claim C1 (code_bug): acceptance consistency fails on the compiled
pattern `[^a]` with the empty input: the subset-construction executor
rejects, while the backtracking executor — through the missing emptiness
guard of `CharacterClassMatcher::match` — takes the class transition on
the empty string and accepts (in the C++, `substr(1)` on the empty
remainder throws `std::out_of_range` instead). -/
theorem powerset_simulate_disagree_on_inverted_class :
    (compile "[^a]".toList true).toOption.map
      (fun n => (powerset n [], (simulate n []).isSome)) = some (false, true) := by
  decide

/-- Claim C3 (counterexample): for the compiled pattern `a` and input
`xa`, the backtracking executor reports a match whose capture group 0 is
`(start, length) = (1, 1)`, not a slice starting at 0 of length 2 as the
claim requires. -/
theorem group0_not_whole_input :
    ((compile "a".toList true).toOption.map
      (fun n => simulate n "xa".toList) = some (some [some (1, 1)])) ∧
    ((1, 1) : Nat × Nat) ≠ (0, "xa".toList.length) :=
  ⟨by decide, by decide⟩

/-- Claim C3 (amended): group 0 stores the span matched by the pattern
body, which for unanchored patterns can be a proper sub-span of the
accepted input (pattern `a`, input `xa`: slice `(1, 1)`); with both
anchors present the body spans the whole input (pattern `^a$`, input `a`:
slice `(0, 1)`). -/
theorem group0_spans_body_match :
    ((compile "a".toList true).toOption.map
      (fun n => simulate n "xa".toList) = some (some [some (1, 1)])) ∧
    ((compile "^a$".toList true).toOption.map
      (fun n => simulate n "a".toList) = some (some [some (0, 1)])) :=
  ⟨by decide, by decide⟩

/-- Claim C5 (counterexample): the optimizer rewrites
`OneOrNone(greedy=true, KleeneStar(greedy=false, a))` — the AST of
`(a*?)?` — to a `KleeneStar` whose greedy flag is `false` (outer ∧
inner), not the outer flag `true` stated by the claim. -/
theorem opt_star_merge_not_outer_greedy :
    optimizeAST (.opt true (.star false (.chr 'a'))) = .star false (.chr 'a') ∧
    optimizeAST (.opt true (.star false (.chr 'a'))) ≠ .star true (.chr 'a') :=
  ⟨by decide, by decide⟩

/-- Claim C5 (amended): `_merge_oneor_hh<OneOrNoneNode, KleeneStarNode>`
rewrites `Opt(Star(x))` into `Star(x)` with greedy = outer ∧ inner. -/
theorem opt_star_merge_and_greedy (og ig : Bool) (x : ASTN) :
    mergeStep .o .k (.opt og (.star ig x)) = some (.star (og && ig) x) :=
  rfl

/-- Claim C6 (counterexample): the class `[a^]`, with an unescaped `^`
after the first position, parses to an *inverted* class whose only
interval is `(a, a)` — the `^` inverted the class instead of being
accumulated as a member. -/
theorem caret_mid_class_inverts :
    buildAST "[a^]".toList true = .ok ⟨.cclass true [('a', 'a')], false, false⟩ ∧
    buildAST "[a^]".toList true ≠
      .ok ⟨.cclass false [('a', 'a'), ('^', '^')], false, false⟩ :=
  ⟨by decide, by decide⟩

/-- Claim C6 (amended): in the character-class environment an unescaped
`^` at *any* position sets the invert flag and changes nothing else; it
is never accumulated into the intervals. -/
theorem caret_in_class_sets_invert (ps : PState) (inv : Bool)
    (ivs : List (Char × Char)) (h1 : ps.ccEnv = true) (h2 : ps.escaped = false)
    (h3 : ps.buff = some (inv, ivs)) :
    parseStep ps '^' = .ok { ps with buff := some (true, ivs), escaped := false } := by
  simp +decide [parseStep, h1, h2, h3]

/-- Claim C6 (amended, witness): the state after scanning `[a`, fed `^`. -/
theorem caret_in_class_sets_invert_witness :
    parseStep ⟨.eps, [[]], 0, false, false, false, false, true, false, false,
        some (false, [('a', 'a')])⟩ '^' =
      .ok ⟨.eps, [[]], 0, false, false, false, false, true, false, false,
        some (true, [('a', 'a')])⟩ :=
  caret_in_class_sets_invert _ false [('a', 'a')] rfl rfl rfl

/-- Claim C7 (counterexample): a pattern ending in `\$` is *not* treated
as a literal dollar: the trailing `$` of `a\$` is stripped as the end
anchor before escape processing, the compiled pattern is `a` anchored at
the end, and it rejects the two-character text `a$`. -/
theorem trailing_escaped_dollar_is_anchor :
    buildAST "a\\$".toList true = .ok ⟨.chr 'a', false, true⟩ ∧
    (compile "a\\$".toList true).toOption.map
      (fun n => powerset n "a$".toList) = some false :=
  ⟨by decide, by decide⟩

/-- Claim C7 (amended): `\$` escapes the dollar only when the `$` is not
the pattern's last character (`a\$b` parses to the literal sequence
`a$b`); a trailing `\$` is consumed as the end anchor with the dangling
backslash escaping nothing, so `a\$` matches exactly `a`. -/
theorem trailing_escaped_dollar_amended :
    buildAST "a\\$".toList true = .ok ⟨.chr 'a', false, true⟩ ∧
    (compile "a\\$".toList true).toOption.map
      (fun n => (powerset n "a".toList, powerset n "a$".toList)) = some (true, false) ∧
    buildAST "a\\$b".toList true = .ok ⟨.cat [.chr 'a', .chr '$', .chr 'b'], false, false⟩ :=
  ⟨by decide, by decide, by decide⟩

/-! ### The NFA of the empty pattern -/

/-- The NFA compiled from the empty pattern: begin and end joined by an
annotated ε, a `Universal` self-loop on each (no anchors), untouched by
the NFA optimizer. -/
lemma emptyNFA_eq :
    ASTtoNFA ⟨.eps, false, false⟩ true =
      ⟨[⟨true, false,
          [⟨0, .epsilon, 1, some ⟨[0], [0]⟩⟩, ⟨1, .universal, 0, none⟩],
          [⟨1, .universal, 0, none⟩]⟩,
        ⟨false, true,
          [⟨2, .universal, 1, none⟩],
          [⟨0, .epsilon, 0, some ⟨[0], [0]⟩⟩, ⟨2, .universal, 1, none⟩]⟩], 1, 3⟩ := by
  decide

/-- On the empty-pattern NFA, the first powerset step reaches `{0, 1}`. -/
lemma emptyNFA_step0 (n : BNFA)
    (hn : n = ⟨[⟨true, false,
          [⟨0, .epsilon, 1, some ⟨[0], [0]⟩⟩, ⟨1, .universal, 0, none⟩],
          [⟨1, .universal, 0, none⟩]⟩,
        ⟨false, true,
          [⟨2, .universal, 1, none⟩],
          [⟨0, .epsilon, 0, some ⟨[0], [0]⟩⟩, ⟨2, .universal, 1, none⟩]⟩], 1, 3⟩)
    (c : Char) : advance n (closureN n (initialSet n)) c = [0, 1] := by
  subst hn; rfl

/-- On the empty-pattern NFA, a powerset step from `{0, 1}` stays there. -/
lemma emptyNFA_step1 (n : BNFA)
    (hn : n = ⟨[⟨true, false,
          [⟨0, .epsilon, 1, some ⟨[0], [0]⟩⟩, ⟨1, .universal, 0, none⟩],
          [⟨1, .universal, 0, none⟩]⟩,
        ⟨false, true,
          [⟨2, .universal, 1, none⟩],
          [⟨0, .epsilon, 0, some ⟨[0], [0]⟩⟩, ⟨2, .universal, 1, none⟩]⟩], 1, 3⟩)
    (c : Char) : advance n (closureN n [0, 1]) c = [0, 1] := by
  subst hn; rfl

/-- The powerset fold over any remaining input stays at `{0, 1}`. -/
lemma emptyNFA_foldl (n : BNFA)
    (hn : n = ⟨[⟨true, false,
          [⟨0, .epsilon, 1, some ⟨[0], [0]⟩⟩, ⟨1, .universal, 0, none⟩],
          [⟨1, .universal, 0, none⟩]⟩,
        ⟨false, true,
          [⟨2, .universal, 1, none⟩],
          [⟨0, .epsilon, 0, some ⟨[0], [0]⟩⟩, ⟨2, .universal, 1, none⟩]⟩], 1, 3⟩) :
    ∀ rest : List Char,
      rest.foldl (fun s c => advance n (closureN n s) c) [0, 1] = [0, 1]
  | [] => rfl
  | c :: rest => by
    rw [List.foldl_cons, emptyNFA_step1 n hn c]
    exact emptyNFA_foldl n hn rest

/-- The empty-pattern NFA accepts every input under `powerset`. -/
lemma emptyNFA_pow (n : BNFA)
    (hn : n = ⟨[⟨true, false,
          [⟨0, .epsilon, 1, some ⟨[0], [0]⟩⟩, ⟨1, .universal, 0, none⟩],
          [⟨1, .universal, 0, none⟩]⟩,
        ⟨false, true,
          [⟨2, .universal, 1, none⟩],
          [⟨0, .epsilon, 0, some ⟨[0], [0]⟩⟩, ⟨2, .universal, 1, none⟩]⟩], 1, 3⟩)
    (w : List Char) : powerset n w = true := by
  cases w with
  | nil => subst hn; rfl
  | cons c rest =>
    show (closureN n ((c :: rest).foldl (fun s c => advance n (closureN n s) c)
      (initialSet n))).any (fun i => ((n.states.get? i).getD {}).isFinal) = true
    rw [List.foldl_cons, emptyNFA_step0 n hn c, emptyNFA_foldl n hn rest]
    subst hn; rfl


/-- On the empty-pattern NFA, `explore` from state 1 (the final state)
always succeeds, for any remaining input and any fresh-enough visited set. -/
lemma emptyNFA_expl1 (n : BNFA) (hn : n =
      ⟨[⟨true, false,
          [⟨0, .epsilon, 1, some ⟨[0], [0]⟩⟩, ⟨1, .universal, 0, none⟩],
          [⟨1, .universal, 0, none⟩]⟩,
        ⟨false, true,
          [⟨2, .universal, 1, none⟩],
          [⟨0, .epsilon, 0, some ⟨[0], [0]⟩⟩, ⟨2, .universal, 1, none⟩]⟩], 1, 3⟩)
    (w : List Char) :
    ∀ (rem : List Char) (fuel : Nat) (st : SimSt),
      2 * rem.length + 1 ≤ fuel →
      rem.length ≤ w.length →
      (∀ j, w.length - rem.length ≤ j → st.visited.contains (1, j) = false) →
      (explore n w fuel 1 rem st).1 = true := by
  subst hn
  intro rem
  induction rem with
  | nil =>
    intro fuel st hf hr hv
    obtain ⟨f, rfl⟩ : ∃ f, fuel = f + 1 := ⟨fuel - 1, by omega⟩
    rfl
  | cons c rest ih =>
    intro fuel st hf hr hv
    simp only [List.length_cons] at hf hr
    obtain ⟨f, rfl⟩ : ∃ f, fuel = f + 2 := ⟨fuel - 2, by omega⟩
    have hc := hv (w.length - (c :: rest).length) (le_refl _)
    simp only [explore, List.isEmpty_cons, Bool.false_and, hc,
      Bool.false_eq_true, if_false, exploreList, Matcher.mmatch,
      List.isEmpty_cons, Bool.not_false, if_true, List.drop_succ_cons,
      List.drop_zero, Matcher.mlen, List.get?_cons_zero, List.get?_cons_succ,
      Option.getD_some, Option.isSome_none, Bool.and_self]
    rcases hE : explore
        ⟨[⟨true, false,
          [⟨0, .epsilon, 1, some ⟨[0], [0]⟩⟩, ⟨1, .universal, 0, none⟩],
          [⟨1, .universal, 0, none⟩]⟩,
        ⟨false, true,
          [⟨2, .universal, 1, none⟩],
          [⟨0, .epsilon, 0, some ⟨[0], [0]⟩⟩, ⟨2, .universal, 1, none⟩]⟩], 1, 3⟩
        w f 1 rest
        ⟨(1, w.length - (c :: rest).length) :: st.visited, st.caps⟩ with ⟨b, st2⟩
    have hb : b = true := by
      have hih := ih f ⟨(1, w.length - (c :: rest).length) :: st.visited, st.caps⟩
        (by omega) (by omega)
        (by
          intro j hj
          have h1 : st.visited.contains (1, j) = false := by
            apply hv
            simp only [List.length_cons]
            omega
          have hne : j ≠ w.length - (c :: rest).length := by
            simp only [List.length_cons]
            omega
          have hpair : (((1 : Nat), j) == ((1 : Nat), w.length - (c :: rest).length)) = false := by
            rw [beq_eq_false_iff_ne]
            intro hpq
            exact hne (congrArg Prod.snd hpq)
          simp only [List.contains_cons, hpair, h1, Bool.or_self])
      rw [hE] at hih
      exact hih
    subst hb
    rfl

/-- On the empty-pattern NFA, `explore` from the initial state 0 succeeds
on any input, given enough fuel: it takes the annotated ε edge to the
final state 1 and then consumes the rest of the input there. -/
lemma emptyNFA_expl0 (n : BNFA) (hn : n =
      ⟨[⟨true, false,
          [⟨0, .epsilon, 1, some ⟨[0], [0]⟩⟩, ⟨1, .universal, 0, none⟩],
          [⟨1, .universal, 0, none⟩]⟩,
        ⟨false, true,
          [⟨2, .universal, 1, none⟩],
          [⟨0, .epsilon, 0, some ⟨[0], [0]⟩⟩, ⟨2, .universal, 1, none⟩]⟩], 1, 3⟩)
    (w : List Char) (fuel : Nat) (hf : 2 * w.length + 3 ≤ fuel) :
    (explore n w fuel 0 w ⟨[], [none]⟩).1 = true := by
  subst hn
  cases w with
  | nil =>
    obtain ⟨f, rfl⟩ : ∃ f, fuel = f + 3 := ⟨fuel - 3, by omega⟩
    rfl
  | cons c rest =>
    obtain ⟨f, rfl⟩ : ∃ f, fuel = f + 2 := ⟨fuel - 2, by omega⟩
    simp only [List.length_cons] at hf
    simp only [explore, List.isEmpty_cons, Bool.false_and, List.contains_nil,
      Bool.false_eq_true, if_false, exploreList, Matcher.mmatch,
      Bool.not_false, if_true, List.drop_zero, Matcher.mlen,
      List.get?_cons_zero, Option.getD_some, Option.isSome_none,
      List.foldl_cons, List.foldl_nil, List.get?_cons_succ, List.set]
    rcases hE : explore
        ⟨[⟨true, false,
          [⟨0, .epsilon, 1, some ⟨[0], [0]⟩⟩, ⟨1, .universal, 0, none⟩],
          [⟨1, .universal, 0, none⟩]⟩,
        ⟨false, true,
          [⟨2, .universal, 1, none⟩],
          [⟨0, .epsilon, 0, some ⟨[0], [0]⟩⟩, ⟨2, .universal, 1, none⟩]⟩], 1, 3⟩
        (c :: rest) f 1 (c :: rest)
        ⟨[(0, (c :: rest).length - (c :: rest).length)], [some ((c :: rest).length - (c :: rest).length, (c :: rest).length - (c :: rest).length + 0 - ((c :: rest).length - (c :: rest).length))]⟩ with ⟨b, st2⟩
    have hb : b = true := by
      have hih := emptyNFA_expl1 _ rfl (c :: rest) (c :: rest) f
        ⟨[(0, (c :: rest).length - (c :: rest).length)], [some ((c :: rest).length - (c :: rest).length, (c :: rest).length - (c :: rest).length + 0 - ((c :: rest).length - (c :: rest).length))]⟩
        (by simp only [List.length_cons]; omega) (le_refl _)
        (by
          intro j hj
          have hpair : (((1 : Nat), j) == ((0 : Nat), (c :: rest).length - (c :: rest).length)) = false := by
            rw [beq_eq_false_iff_ne]
            intro hpq
            exact Nat.one_ne_zero (congrArg Prod.fst hpq)
          simp only [List.contains_cons, List.contains_nil, hpair, Bool.or_self])
      rw [hE] at hih
      exact hih
    subst hb
    rfl

/-- The empty-pattern NFA matches every input under the backtracking
executor `simulate`. -/
lemma emptyNFA_sim (n : BNFA) (hn : n =
      ⟨[⟨true, false,
          [⟨0, .epsilon, 1, some ⟨[0], [0]⟩⟩, ⟨1, .universal, 0, none⟩],
          [⟨1, .universal, 0, none⟩]⟩,
        ⟨false, true,
          [⟨2, .universal, 1, none⟩],
          [⟨0, .epsilon, 0, some ⟨[0], [0]⟩⟩, ⟨2, .universal, 1, none⟩]⟩], 1, 3⟩)
    (w : List Char) : (simulate n w).isSome = true := by
  subst hn
  have key : simulate
      ⟨[⟨true, false,
          [⟨0, .epsilon, 1, some ⟨[0], [0]⟩⟩, ⟨1, .universal, 0, none⟩],
          [⟨1, .universal, 0, none⟩]⟩,
        ⟨false, true,
          [⟨2, .universal, 1, none⟩],
          [⟨0, .epsilon, 0, some ⟨[0], [0]⟩⟩, ⟨2, .universal, 1, none⟩]⟩], 1, 3⟩ w =
      simulateGo
      ⟨[⟨true, false,
          [⟨0, .epsilon, 1, some ⟨[0], [0]⟩⟩, ⟨1, .universal, 0, none⟩],
          [⟨1, .universal, 0, none⟩]⟩,
        ⟨false, true,
          [⟨2, .universal, 1, none⟩],
          [⟨0, .epsilon, 0, some ⟨[0], [0]⟩⟩, ⟨2, .universal, 1, none⟩]⟩], 1, 3⟩ w
      (2 * (w.length + 1) * 5 + 1) [0, 1] ⟨[], [none]⟩ := rfl
  rw [key]
  simp only [simulateGo, List.get?_cons_zero, Option.getD_some, if_true]
  rcases hE : explore
      ⟨[⟨true, false,
          [⟨0, .epsilon, 1, some ⟨[0], [0]⟩⟩, ⟨1, .universal, 0, none⟩],
          [⟨1, .universal, 0, none⟩]⟩,
        ⟨false, true,
          [⟨2, .universal, 1, none⟩],
          [⟨0, .epsilon, 0, some ⟨[0], [0]⟩⟩, ⟨2, .universal, 1, none⟩]⟩], 1, 3⟩
      w (2 * (w.length + 1) * 5 + 1) 0 w ⟨[], [none]⟩ with ⟨b, st2⟩
  have hb : b = true := by
    have h0 := emptyNFA_expl0 _ rfl w (2 * (w.length + 1) * 5 + 1) (by omega)
    rw [hE] at h0
    exact h0
  subst hb
  rfl

/-- Claim C9 (confirmed): compiling the empty pattern succeeds — the AST
root is a single `Epsilon` leaf and both anchor flags are false — and the
resulting NFA accepts every input string under both executors, the subset
construction `powerset` and the backtracker `simulate`. -/
theorem empty_pattern_accepts_everything :
    buildAST [] true = .ok ⟨.eps, false, false⟩ ∧
    ∀ w : List Char,
      powerset (ASTtoNFA ⟨.eps, false, false⟩ true) w = true ∧
      (simulate (ASTtoNFA ⟨.eps, false, false⟩ true) w).isSome = true :=
  ⟨by decide, fun w =>
    ⟨emptyNFA_pow _ emptyNFA_eq w, emptyNFA_sim _ emptyNFA_eq w⟩⟩
